import Mathlib

/-!
Shallow embedding of the disc VFS layer of libbluray
(`src/libbluray/disc/disc.c`), and proofs of its specified properties.

Directory entries (`BD_DIRENT.d_name`) are modelled as `String`; a directory
handle (`BD_DIR_H`) is modelled by the listing it yields, a `List String`.
File and directory I/O collaborators (`file_open`, `dir_open`, ...) are
modelled as functions from an absolute path to an optional result.
-/

namespace LibBluray

/-- Path separator `DIR_SEP_CHAR` from the file layer: the path separator. -/
def DIR_SEP_CHAR : Char := '/'

/-- The two path fields of `struct bd_disc` that the VFS operations read:
`disc_root` (disc filesystem root, if mounted) and `overlay_root`
(overlay filesystem root, if set).  `none` models a NULL pointer. -/
structure BDDisc where
  disc_root : Option String
  overlay_root : Option String

/-! ## Overlay filesystem (`_overlay_open_path`, `_overlay_open_dir`) -/

/-- Model of `_overlay_open_path` (disc.c:91-106): under the overlay lock, if
`overlay_root` is set, build `overlay_root ++ rel_path` and open it;
otherwise return NULL.  `fs` models `file_open_default()`. -/
def overlay_open_path {α : Type} (fs : String → Option α) (p : BDDisc)
    (rel_path : String) : Option α :=
  match p.overlay_root with
  | none => none
  | some root => fs (root ++ rel_path)

/-- The absolute path that `_overlay_open_dir` (disc.c:108-123) builds when
`overlay_root` is set.  The source reads `str_printf("%s%s", p->disc_root, dir)`:
it concatenates `disc_root`, not `overlay_root`.  (A NULL `disc_root` passed to
`%s` is undefined behaviour in C; it is modelled here as the empty string.) -/
def overlay_open_dir_abs_path (p : BDDisc) (dir : String) : Option String :=
  match p.overlay_root with
  | none => none
  | some _ => some ((p.disc_root.getD "") ++ dir)

/-- Model of `_overlay_open_dir` (disc.c:108-123): under the overlay lock, if
`overlay_root` is set, open the path built by `overlay_open_dir_abs_path`
via `dir_open_default()` (modelled by `fs`); otherwise return NULL. -/
def overlay_open_dir (fs : String → Option (List String)) (p : BDDisc)
    (dir : String) : Option (List String) :=
  match overlay_open_dir_abs_path p dir with
  | none => none
  | some abs_path => fs abs_path

/-! ## Directory combining (`_comb_dir_append`, `_combine_dirs`) -/

/-- Model of `_comb_dir_append` (disc.c:151-175): append `entry` to the combined
listing unless an entry with the same name (byte-for-byte `strcmp`) is
already present.  (The realloc-failure path, which silently drops the
entry, is not modelled: allocation is assumed to succeed.) -/
def comb_dir_append (priv : List String) (entry : String) : List String :=
  if entry ∈ priv then priv else priv ++ [entry]

/-- Model of `_combine_dirs` (disc.c:177-198): starting from an empty listing, drain
the overlay iterator, then the BD-ROM iterator, through `_comb_dir_append`;
both source iterators are closed afterwards. -/
def combine_dirs (ovl rom : List String) : List String :=
  (ovl ++ rom).foldl comb_dir_append []

/-- Specification-side helper: process `l` left to right, keeping each entry
whose name has not been seen before (`seen` holds the names already in the
result), extending `seen` with each kept entry. -/
def append_unique (seen : List String) : List String → List String
  | [] => []
  | e :: es =>
    if e ∈ seen then append_unique seen es
    else e :: append_unique (seen ++ [e]) es

/-! ## Construction path normalization (`_set_paths`) -/

/-- Model of `_set_paths` (disc.c:218-231), acting on the result of
`mount_get_mountpoint`.  Paths are modelled as `List Char` (C character
arrays).  A NULL mountpoint, or one already ending with the separator, is
stored as is; otherwise the separator is appended (an empty mountpoint
fails the `disc_root[0]` test and also gets the separator appended). -/
def set_paths : Option (List Char) → Option (List Char)
  | none => none
  | some disc_root =>
    if disc_root ≠ [] ∧ disc_root.getLast? = some DIR_SEP_CHAR then
      some disc_root
    else
      some (disc_root ++ [DIR_SEP_CHAR])

/-! ## Teardown (`disc_close`) -/

/-- The teardown actions `disc_close` can perform, in source order. -/
inductive CloseAction where
  | dec_close
  | fs_close
  | mutex_destroy
  | free_disc_root
  | free_overlay_root
  deriving DecidableEq, Repr

/-- Model of `disc_close` (disc.c:279-295): close the decryption context, call
`pf_fs_close` on the fs handle if set, destroy the overlay mutex, free
`disc_root`, free the struct itself.  Returns the sequence of teardown
actions performed. -/
def disc_close (has_fs_close : Bool) : List CloseAction :=
  [CloseAction.dec_close]
    ++ (if has_fs_close then [CloseAction.fs_close] else [])
    ++ [CloseAction.mutex_destroy, CloseAction.free_disc_root]

/-! ## Path resolution (`disc_open_path`) -/

/-- Outcome of `disc_open_path`: the returned handle, whether the bound
BD-ROM open function was invoked, and whether the not-found error was
logged. -/
structure PathResult (α : Type) where
  handle : Option α
  bdrom_consulted : Bool
  not_found_logged : Bool
  deriving DecidableEq, Repr

/-- Model of `disc_open_path` (disc.c:320-337): search the overlay first; only if
that yields NULL call `pf_file_open_bdrom`; if that is also NULL, log the
error and return NULL. -/
def disc_open_path {α : Type} (ovl_fs : String → Option α)
    (file_open_bdrom : String → Option α) (p : BDDisc) (rel_path : String) :
    PathResult α :=
  match overlay_open_path ovl_fs p rel_path with
  | some fp => ⟨some fp, false, false⟩
  | none =>
    match file_open_bdrom rel_path with
    | some fp => ⟨some fp, true, false⟩
    | none => ⟨none, true, true⟩

/-! ## Directory listing (`disc_open_dir`) -/

/-- Outcome of `disc_open_dir`: the returned handle (its listing), whether
it is the synthetic combined iterator, whether both source handles were
consumed by the merge, and whether the not-found message was logged. -/
structure OpenDirResult where
  handle : Option (List String)
  merged : Bool
  sources_closed : Bool
  not_found_logged : Bool
  deriving DecidableEq, Repr

/-- Model of `disc_open_dir` (disc.c:351-370): open the directory against the BD-ROM
backing store and against the overlay; if the overlay yields nothing return
the BD-ROM handle (logging if that is NULL too); if only the overlay yields
a handle return it; if both yield handles return `_combine_dirs` of them,
which consumes both sources. -/
def disc_open_dir (dir_open_bdrom : String → Option (List String))
    (ovl_fs : String → Option (List String)) (p : BDDisc) (dir : String) :
    OpenDirResult :=
  let dp_rom := dir_open_bdrom dir
  let dp_ovl := overlay_open_dir ovl_fs p dir
  match dp_ovl with
  | none => ⟨dp_rom, false, false, dp_rom.isNone⟩
  | some o =>
    match dp_rom with
    | none => ⟨some o, false, false, false⟩
    | some r => ⟨some (combine_dirs o r), true, true, false⟩

/-! ## Bulk file read (`disc_read_file`) -/

/-- Resource actions `disc_read_file` performs on the opened handle and the
buffer: `malloc` of the buffer (the attempt), `X_FREE` of the buffer, and
`file_close` of the handle. -/
inductive FileAction where
  | alloc
  | free_buf
  | close_file
  deriving DecidableEq, Repr

/-- The opened file as `disc_read_file` observes it: the value `file_size`
reports and the value `file_read` returns for the full-size read. -/
structure FileDesc where
  size : Int
  read_result : Int
  deriving DecidableEq, Repr

/-- Model of `disc_read_file` (disc.c:372-405).  `bd_max_ssize` is the platform
constant `BD_MAX_SSIZE`; `malloc_ok` tells whether the buffer allocation
succeeds; `fp` is the result of `disc_open_file`.  Returns the returned
length, whether `*data` is non-NULL on return, and the sequence of
resource actions performed. -/
def disc_read_file (bd_max_ssize : Int) (malloc_ok : Bool)
    (fp : Option FileDesc) : Nat × Bool × List FileAction :=
  match fp with
  | none => (0, false, [])
  | some f =>
    if 0 < f.size ∧ f.size < bd_max_ssize then
      if malloc_ok then
        if f.read_result = f.size then
          (f.size.toNat, true, [FileAction.alloc, FileAction.close_file])
        else
          (0, false, [FileAction.alloc, FileAction.free_buf, FileAction.close_file])
      else
        (0, false, [FileAction.alloc, FileAction.close_file])
    else
      (0, false, [FileAction.close_file])

/-! ## Local caching (`disc_cache_bdrom_file`) -/

/-- The chunk size of the cache copy loop: `uint8_t buf[16*2048]`. -/
def CACHE_CHUNK_SIZE : Nat := 16 * 2048

/-- Outcome of `disc_cache_bdrom_file`: the return value, whether a file is
left at the destination path, and whether the input and output handles are
closed (true also when a handle was never opened). -/
structure CacheOutcome where
  ret : Int
  dest_exists : Bool
  closed_in : Bool
  closed_out : Bool
  deriving DecidableEq, Repr

/-- The copy loop of `disc_cache_bdrom_file` (disc.c:447-466).  `write_fn i g`
models `fp_out->write` at the `i`-th iteration when `file_read` returned `g`;
`reads` is the sequence of `file_read` return values (an exhausted list
models `file_read` returning 0 at end of file).  A read result `≤ 0` breaks
the loop; then both handles are closed and 0 is returned with the
destination file kept.  A write result different from the read count closes
both handles, unlinks the destination and returns -1. -/
def disc_cache_loop (write_fn : Nat → Int → Int) :
    List Int → Nat → CacheOutcome
  | [], _ => ⟨0, true, true, true⟩
  | got :: rest, i =>
    if got ≤ 0 then ⟨0, true, true, true⟩
    else if write_fn i got ≠ got then ⟨-1, false, true, true⟩
    else disc_cache_loop write_fn rest (i + 1)

/-- Whether the copy loop encounters a chunk write that does not fully
succeed before the source reads are exhausted. -/
def short_write_hit (write_fn : Nat → Int → Int) :
    List Int → Nat → Bool
  | [], _ => false
  | got :: rest, i =>
    if got ≤ 0 then false
    else if write_fn i got ≠ got then true
    else short_write_hit write_fn rest (i + 1)

/-- Model of `disc_cache_bdrom_file` (disc.c:423-466).  `in_opened` is whether
`pf_file_open_bdrom` yields the source handle; `out_opened` whether the
destination opens for writing (when it does not, the source is closed and
-1 returned); otherwise the copy loop runs. -/
def disc_cache_bdrom_file (in_opened out_opened : Bool)
    (write_fn : Nat → Int → Int) (reads : List Int) : CacheOutcome :=
  if ¬in_opened then ⟨-1, false, true, true⟩
  else if ¬out_opened then ⟨-1, false, true, true⟩
  else disc_cache_loop write_fn reads 0

/-! ## Lemmas on the directory merger -/

lemma foldl_comb_dir_append (l : List String) :
    ∀ acc : List String, l.foldl comb_dir_append acc = acc ++ append_unique acc l := by
  induction l with
  | nil => intro acc; simp [append_unique]
  | cons e es ih =>
    intro acc
    by_cases h : e ∈ acc
    · simp [comb_dir_append, append_unique, h, ih]
    · simp [comb_dir_append, append_unique, h, ih]

lemma mem_append_unique (l : List String) :
    ∀ (seen : List String) (x : String),
      x ∈ seen ++ append_unique seen l ↔ x ∈ seen ∨ x ∈ l := by
  induction l with
  | nil => intro seen x; simp [append_unique]
  | cons e es ih =>
    intro seen x
    by_cases h : e ∈ seen
    · rw [append_unique, if_pos h, ih]
      constructor
      · rintro (hs | hs)
        · exact Or.inl hs
        · exact Or.inr (List.mem_cons_of_mem _ hs)
      · rintro (hs | hs)
        · exact Or.inl hs
        · rcases List.mem_cons.mp hs with rfl | hs
          · exact Or.inl h
          · exact Or.inr hs
    · rw [append_unique, if_neg h]
      have : seen ++ e :: append_unique (seen ++ [e]) es
          = (seen ++ [e]) ++ append_unique (seen ++ [e]) es := by
        simp
      rw [this, ih]
      simp [or_assoc]

lemma nodup_append_unique (l : List String) :
    ∀ seen : List String, seen.Nodup → (seen ++ append_unique seen l).Nodup := by
  induction l with
  | nil => intro seen hseen; simpa [append_unique] using hseen
  | cons e es ih =>
    intro seen hseen
    by_cases h : e ∈ seen
    · rw [append_unique, if_pos h]
      exact ih seen hseen
    · rw [append_unique, if_neg h]
      have h1 : (seen ++ [e]).Nodup := by
        simp [List.nodup_append, hseen, h]
      have := ih (seen ++ [e]) h1
      simpa using this

lemma append_unique_of_nodup (l : List String) :
    ∀ seen : List String, l.Nodup → (∀ x ∈ l, x ∉ seen) →
      append_unique seen l = l := by
  induction l with
  | nil => intro seen _ _; rfl
  | cons e es ih =>
    intro seen hnd hdisj
    have he : e ∉ seen := hdisj e (List.mem_cons_self _ _)
    rw [append_unique, if_neg he]
    congr 1
    apply ih (seen ++ [e]) (List.Nodup.of_cons hnd)
    intro x hx
    simp only [List.mem_append, List.mem_singleton]
    rintro (hs | rfl)
    · exact hdisj x (List.mem_cons_of_mem _ hx) hs
    · exact (List.nodup_cons.mp hnd).1 hx

lemma append_unique_append (l₁ l₂ : List String) :
    ∀ seen : List String,
      append_unique seen (l₁ ++ l₂)
        = append_unique seen l₁
          ++ append_unique (seen ++ append_unique seen l₁) l₂ := by
  induction l₁ with
  | nil => intro seen; simp [append_unique]
  | cons e es ih =>
    intro seen
    by_cases h : e ∈ seen
    · simp only [List.cons_append, append_unique, if_pos h]
      exact ih seen
    · simp only [List.cons_append, append_unique, if_neg h]
      rw [List.append_eq, ih (seen ++ [e])]
      simp

lemma combine_dirs_eq_append_unique (ovl rom : List String) :
    combine_dirs ovl rom = append_unique [] (ovl ++ rom) := by
  rw [combine_dirs, foldl_comb_dir_append]
  simp

/-! ## C4: merged directory listing -/

/-- C4: for every pair of source listings (a directory iterator yields
pairwise distinct names, captured by `hovl`), `_combine_dirs` produces all
overlay entries in their source order followed by those BD-ROM entries
whose names do not already occur earlier in the result, in their source
order; no name occurs twice; an entry is in the result iff it is in one of
the sources; and the merged count is the size of the union of the two name
sets. -/
theorem combine_dirs_spec (ovl rom : List String) (hovl : ovl.Nodup) :
    combine_dirs ovl rom = ovl ++ append_unique ovl rom
    ∧ (combine_dirs ovl rom).Nodup
    ∧ (∀ x, x ∈ combine_dirs ovl rom ↔ x ∈ ovl ∨ x ∈ rom)
    ∧ (combine_dirs ovl rom).length = (ovl ++ rom).toFinset.card := by
  have hmem : ∀ x, x ∈ combine_dirs ovl rom ↔ x ∈ ovl ∨ x ∈ rom := by
    intro x
    rw [combine_dirs_eq_append_unique]
    have := mem_append_unique (ovl ++ rom) [] x
    simpa using this
  have hnodup : (combine_dirs ovl rom).Nodup := by
    rw [combine_dirs_eq_append_unique]
    have := nodup_append_unique (ovl ++ rom) [] List.nodup_nil
    simpa using this
  refine ⟨?_, hnodup, hmem, ?_⟩
  · rw [combine_dirs_eq_append_unique, append_unique_append]
    have hid : append_unique [] ovl = ovl :=
      append_unique_of_nodup ovl [] hovl (by simp)
    rw [hid]
    simp
  · have hfs : (combine_dirs ovl rom).toFinset = (ovl ++ rom).toFinset := by
      ext x
      simp [List.mem_toFinset, hmem x]
    calc (combine_dirs ovl rom).length
        = (combine_dirs ovl rom).toFinset.card :=
          (List.toFinset_card_of_nodup hnodup).symm
      _ = (ovl ++ rom).toFinset.card := by rw [hfs]

/-- Witness for C4 at the specification scenario: overlay `[a.m2ts]`,
backing store `[a.m2ts, b.m2ts]`, merged listing `[a.m2ts, b.m2ts]`,
exactly 2 entries. -/
theorem combine_dirs_spec_witness :
    (["a.m2ts"] : List String).Nodup
    ∧ combine_dirs ["a.m2ts"] ["a.m2ts", "b.m2ts"]
        = ["a.m2ts"] ++ append_unique ["a.m2ts"] ["a.m2ts", "b.m2ts"]
    ∧ combine_dirs ["a.m2ts"] ["a.m2ts", "b.m2ts"] = ["a.m2ts", "b.m2ts"]
    ∧ (combine_dirs ["a.m2ts"] ["a.m2ts", "b.m2ts"]).length = 2 :=
  ⟨by decide,
   (combine_dirs_spec ["a.m2ts"] ["a.m2ts", "b.m2ts"] (by decide)).1,
   by decide, by decide⟩

/-! ## C1: overlay-side directory lookup -/

/-- C1 (the code at the failing input): with `disc_root = "/disc/"` and
`overlay_root = "/ovl/"`, `_overlay_open_dir("BDMV/STREAM")` builds
`"/disc/BDMV/STREAM"` — it concatenates the disc root, not the overlay
root — and therefore opens the backing-store directory; with a filesystem
where the overlay directory holds `[a.m2ts]` and the backing directory
holds `[a.m2ts, b.m2ts]`, the overlay-side lookup returns the backing
listing.  The absent-overlay half of the claim does hold: with
`overlay_root` absent the lookup returns an absent handle. -/
theorem overlay_open_dir_uses_disc_root :
    overlay_open_dir_abs_path ⟨some "/disc/", some "/ovl/"⟩ "BDMV/STREAM"
      = some "/disc/BDMV/STREAM"
    ∧ some "/disc/BDMV/STREAM" ≠ some ("/ovl/" ++ "BDMV/STREAM")
    ∧ overlay_open_dir
        (fun s =>
          if s = "/ovl/BDMV/STREAM" then some ["a.m2ts"]
          else if s = "/disc/BDMV/STREAM" then some ["a.m2ts", "b.m2ts"]
          else none)
        ⟨some "/disc/", some "/ovl/"⟩ "BDMV/STREAM" = some ["a.m2ts", "b.m2ts"]
    ∧ (∀ fs : String → Option (List String),
        overlay_open_dir fs ⟨some "/disc/", none⟩ "BDMV/STREAM" = none) :=
  ⟨rfl, by decide, by decide, fun _ => rfl⟩

/-! ## C2: teardown -/

/-- C2 (the code at the failing input): `disc_close` closes the decryption
context, then the backing store's extra resource when present, then the
lock, then frees `disc_root` — but `overlay_root` is never freed, with or
without a backing-store close function. -/
theorem disc_close_leaks_overlay_root :
    disc_close true
      = [CloseAction.dec_close, CloseAction.fs_close,
         CloseAction.mutex_destroy, CloseAction.free_disc_root]
    ∧ disc_close false
      = [CloseAction.dec_close, CloseAction.mutex_destroy,
         CloseAction.free_disc_root]
    ∧ CloseAction.free_overlay_root ∉ disc_close true
    ∧ CloseAction.free_overlay_root ∉ disc_close false :=
  ⟨rfl, rfl, by decide, by decide⟩

/-! ## C3: read_file size bounds -/

/-- C3 counterexample: with `BD_MAX_SSIZE = 2^63 - 1` and a file whose
reported size is exactly `2^63 - 1`, `disc_read_file` attempts no
allocation and fails (the guard is the strict `size < BD_MAX_SSIZE`),
contradicting the claim that a size equal to the maximum is accepted and
allocation attempted. -/
theorem disc_read_file_max_size_counterexample :
    disc_read_file (2 ^ 63 - 1) true (some ⟨2 ^ 63 - 1, 2 ^ 63 - 1⟩)
      = (0, false, [FileAction.close_file])
    ∧ FileAction.alloc
        ∉ (disc_read_file (2 ^ 63 - 1) true (some ⟨2 ^ 63 - 1, 2 ^ 63 - 1⟩)).2.2 := by
  constructor
  · have h : ¬(0 < (2 ^ 63 - 1 : Int) ∧ (2 ^ 63 - 1 : Int) < 2 ^ 63 - 1) := by
      simp
    simp [disc_read_file, h]
  · have h : ¬(0 < (2 ^ 63 - 1 : Int) ∧ (2 ^ 63 - 1 : Int) < 2 ^ 63 - 1) := by
      simp
    simp [disc_read_file, h]

/-- C3 amended: for an opened file, allocation is attempted exactly when
the reported size is strictly between 0 and `BD_MAX_SSIZE` (a size equal
to the bound is rejected like an oversized one); for any size outside
those strict bounds the call returns zero length and an absent buffer
having performed no allocation, only the close. -/
theorem disc_read_file_size_bounds (bd_max_ssize : Int) (malloc_ok : Bool)
    (f : FileDesc) :
    (FileAction.alloc ∈ (disc_read_file bd_max_ssize malloc_ok (some f)).2.2
      ↔ 0 < f.size ∧ f.size < bd_max_ssize)
    ∧ (¬(0 < f.size ∧ f.size < bd_max_ssize) →
        disc_read_file bd_max_ssize malloc_ok (some f)
          = (0, false, [FileAction.close_file])) := by
  by_cases h : 0 < f.size ∧ f.size < bd_max_ssize
  · refine ⟨⟨fun _ => h, fun _ => ?_⟩, fun hc => absurd h hc⟩
    by_cases hm : malloc_ok
    · by_cases hr : f.read_result = f.size <;> simp [disc_read_file, h, hm, hr]
    · simp [disc_read_file, h, hm]
  · refine ⟨⟨fun ha => ?_, fun hc => absurd hc h⟩, fun _ => by simp [disc_read_file, h]⟩
    simp [disc_read_file, h] at ha

/-- Witness for C3's amended theorem: a file of size -3 is rejected with
no allocation attempt. -/
theorem disc_read_file_size_bounds_witness :
    (FileAction.alloc ∈ (disc_read_file 100 true (some ⟨-3, 0⟩)).2.2
      ↔ 0 < (-3 : Int) ∧ (-3 : Int) < 100)
    ∧ disc_read_file 100 true (some ⟨-3, 0⟩)
        = (0, false, [FileAction.close_file]) :=
  ⟨(disc_read_file_size_bounds 100 true ⟨-3, 0⟩).1,
   (disc_read_file_size_bounds 100 true ⟨-3, 0⟩).2 (by decide)⟩

/-! ## C5: open_path precedence -/

/-- C5: `disc_open_path` asks the overlay first and returns its handle
without consulting the backing store when it is found; only when the
overlay yields nothing is the bound file-open function called; when that
also yields nothing the not-found condition is logged and the handle is
absent. -/
theorem disc_open_path_precedence {α : Type} (ovl_fs : String → Option α)
    (file_open_bdrom : String → Option α) (p : BDDisc) (rel_path : String) :
    (∀ fp, overlay_open_path ovl_fs p rel_path = some fp →
      disc_open_path ovl_fs file_open_bdrom p rel_path = ⟨some fp, false, false⟩)
    ∧ (overlay_open_path ovl_fs p rel_path = none →
        (disc_open_path ovl_fs file_open_bdrom p rel_path).handle
            = file_open_bdrom rel_path
        ∧ (disc_open_path ovl_fs file_open_bdrom p rel_path).bdrom_consulted = true)
    ∧ (overlay_open_path ovl_fs p rel_path = none →
        file_open_bdrom rel_path = none →
        disc_open_path ovl_fs file_open_bdrom p rel_path = ⟨none, true, true⟩) := by
  refine ⟨fun fp h => by simp [disc_open_path, h], fun h => ?_, fun h hb => ?_⟩
  · cases hb : file_open_bdrom rel_path <;> simp [disc_open_path, h, hb]
  · simp [disc_open_path, h, hb]

/-- Witness for C5: an overlay hit is returned without consulting the
backing store; a double miss yields an absent handle with the not-found
condition logged. -/
theorem disc_open_path_precedence_witness :
    disc_open_path (fun _ => some 1) (fun _ => some 2) ⟨none, some "/ovl/"⟩ "x"
      = ⟨some 1, false, false⟩
    ∧ disc_open_path (fun _ => (none : Option Nat)) (fun _ => none)
        ⟨none, some "/ovl/"⟩ "x" = ⟨none, true, true⟩ :=
  ⟨(disc_open_path_precedence (fun _ => some 1) (fun _ => some 2)
      ⟨none, some "/ovl/"⟩ "x").1 1 rfl,
   (disc_open_path_precedence (fun _ => none) (fun _ => none)
      ⟨none, some "/ovl/"⟩ "x").2.2 rfl rfl⟩

/-! ## C6: open_dir dispatch -/

/-- C6: `disc_open_dir` returns an absent handle when neither source
yields one (logging not-found); the single handle directly, unmerged, when
exactly one source yields one; and the combined listing, with both source
handles consumed, when both yield one. -/
theorem disc_open_dir_cases (dir_open_bdrom ovl_fs : String → Option (List String))
    (p : BDDisc) (dir : String) :
    (overlay_open_dir ovl_fs p dir = none → dir_open_bdrom dir = none →
      disc_open_dir dir_open_bdrom ovl_fs p dir = ⟨none, false, false, true⟩)
    ∧ (∀ r, overlay_open_dir ovl_fs p dir = none → dir_open_bdrom dir = some r →
        disc_open_dir dir_open_bdrom ovl_fs p dir = ⟨some r, false, false, false⟩)
    ∧ (∀ o, overlay_open_dir ovl_fs p dir = some o → dir_open_bdrom dir = none →
        disc_open_dir dir_open_bdrom ovl_fs p dir = ⟨some o, false, false, false⟩)
    ∧ (∀ o r, overlay_open_dir ovl_fs p dir = some o → dir_open_bdrom dir = some r →
        disc_open_dir dir_open_bdrom ovl_fs p dir
          = ⟨some (combine_dirs o r), true, true, false⟩) := by
  refine ⟨fun h hb => ?_, fun r h hb => ?_, fun o h hb => ?_, fun o r h hb => ?_⟩ <;>
    simp [disc_open_dir, h, hb]

/-- Witness for C6: the double-miss case and the merge case at concrete
sources. -/
theorem disc_open_dir_cases_witness :
    disc_open_dir (fun _ => none) (fun _ => none) ⟨none, none⟩ "d"
      = ⟨none, false, false, true⟩
    ∧ disc_open_dir (fun _ => some ["a.m2ts", "b.m2ts"]) (fun _ => some ["a.m2ts"])
        ⟨some "/disc/", some "/ovl/"⟩ "d"
      = ⟨some (combine_dirs ["a.m2ts"] ["a.m2ts", "b.m2ts"]), true, true, false⟩ :=
  ⟨(disc_open_dir_cases (fun _ => none) (fun _ => none) ⟨none, none⟩ "d").1 rfl rfl,
   (disc_open_dir_cases (fun _ => some ["a.m2ts", "b.m2ts"]) (fun _ => some ["a.m2ts"])
      ⟨some "/disc/", some "/ovl/"⟩ "d").2.2.2 ["a.m2ts"] ["a.m2ts", "b.m2ts"] rfl rfl⟩

/-! ## Lemmas on the cache copy loop -/

lemma disc_cache_loop_eq (write_fn : Nat → Int → Int) :
    ∀ (reads : List Int) (i : Nat),
      disc_cache_loop write_fn reads i
        = if short_write_hit write_fn reads i then ⟨-1, false, true, true⟩
          else ⟨0, true, true, true⟩ := by
  intro reads
  induction reads with
  | nil => intro i; simp [disc_cache_loop, short_write_hit]
  | cons got rest ih =>
    intro i
    rw [disc_cache_loop, short_write_hit]
    by_cases h0 : got ≤ 0
    · simp [h0]
    · rw [if_neg h0, if_neg h0]
      by_cases hw : write_fn i got ≠ got
      · simp [hw]
      · simp only [hw, if_neg hw, if_false, ih (i + 1)]

/-! ## C7: short write unwinds the cache -/

/-- C7: whenever some fixed-size chunk write does not fully succeed, the
cache operation closes both handles, deletes the partially written
destination (no file is left at the destination path) and reports
failure; the copy chunk is `16*2048` bytes, i.e. 32 KiB. -/
theorem disc_cache_bdrom_file_short_write (write_fn : Nat → Int → Int)
    (reads : List Int) (h : short_write_hit write_fn reads 0 = true) :
    disc_cache_bdrom_file true true write_fn reads = ⟨-1, false, true, true⟩
    ∧ CACHE_CHUNK_SIZE = 32 * 1024 := by
  constructor
  · simp [disc_cache_bdrom_file, disc_cache_loop_eq, h]
  · rfl

/-- Witness for C7: a write that reports 0 of 5 bytes written triggers
the full unwind. -/
theorem disc_cache_bdrom_file_short_write_witness :
    short_write_hit (fun _ _ => 0) [5] 0 = true
    ∧ disc_cache_bdrom_file true true (fun _ _ => 0) [5]
        = ⟨-1, false, true, true⟩ :=
  ⟨by decide,
   (disc_cache_bdrom_file_short_write (fun _ _ => 0) [5] (by decide)).1⟩

/-! ## C9: read error terminates like end-of-file -/

/-- C9: a source-side read returning a negative value terminates the copy
loop exactly like end-of-file — both handles closed, destination left in
place, success reported — and the destination is deleted exactly when
some chunk write fell short. -/
theorem disc_cache_loop_read_error (write_fn : Nat → Int → Int) :
    (∀ (got : Int) (rest : List Int) (i : Nat), got < 0 →
      disc_cache_loop write_fn (got :: rest) i = ⟨0, true, true, true⟩
      ∧ disc_cache_loop write_fn (got :: rest) i
          = disc_cache_loop write_fn [] i)
    ∧ (∀ (reads : List Int) (i : Nat),
        (disc_cache_loop write_fn reads i).dest_exists = false
          ↔ short_write_hit write_fn reads i = true) := by
  constructor
  · intro got rest i hneg
    have h0 : got ≤ 0 := le_of_lt hneg
    have h1 : disc_cache_loop write_fn (got :: rest) i = ⟨0, true, true, true⟩ := by
      rw [disc_cache_loop, if_pos h0]
    exact ⟨h1, by rw [h1, disc_cache_loop]⟩
  · intro reads i
    rw [disc_cache_loop_eq]
    by_cases h : short_write_hit write_fn reads i <;> simp [h]

/-- Witness for C9: a read error (-1) after no short write ends the copy
with the destination kept and success reported. -/
theorem disc_cache_loop_read_error_witness :
    disc_cache_loop (fun _ g => g) [-1, 7] 0 = ⟨0, true, true, true⟩
    ∧ ((disc_cache_loop (fun _ g => g) [-1, 7] 0).dest_exists = false
        ↔ short_write_hit (fun _ g => g) [-1, 7] 0 = true) :=
  ⟨((disc_cache_loop_read_error (fun _ g => g)).1 (-1) [7] 0 (by decide)).1,
   (disc_cache_loop_read_error (fun _ g => g)).2 [-1, 7] 0⟩

/-! ## C8: short read unwinds the buffer; the handle is always closed -/

/-- C8: when the opened file's full-size read returns fewer (or more)
bytes than the reported size, the buffer is released, the returned buffer
is absent and the returned length is zero; and in every case the last
action on an opened handle is closing it, while when the open failed no
handle exists and no action is performed. -/
theorem disc_read_file_short_read (bd_max_ssize : Int) (f : FileDesc)
    (hsize : 0 < f.size ∧ f.size < bd_max_ssize)
    (hshort : f.read_result ≠ f.size) :
    disc_read_file bd_max_ssize true (some f)
      = (0, false, [FileAction.alloc, FileAction.free_buf, FileAction.close_file])
    ∧ ∀ (m : Int) (ok : Bool) (fp : Option FileDesc),
        (fp.isSome →
          ((disc_read_file m ok fp).2.2).getLast? = some FileAction.close_file)
        ∧ (fp.isNone → (disc_read_file m ok fp).2.2 = []) := by
  constructor
  · simp [disc_read_file, hsize, hshort]
  · intro m ok fp
    constructor
    · intro hs
      match fp with
      | some g =>
        rw [disc_read_file]
        by_cases h : 0 < g.size ∧ g.size < m
        · rw [if_pos h]
          by_cases hm : ok
          · by_cases hr : g.read_result = g.size <;> simp [hm, hr]
          · simp [hm]
        · rw [if_neg h]
          rfl
      | none => simp at hs
    · intro hn
      match fp with
      | none => rfl
      | some g => simp at hn

/-- Witness for C8: a file of size 10 whose read returns 5 bytes. -/
theorem disc_read_file_short_read_witness :
    disc_read_file 100 true (some ⟨10, 5⟩)
      = (0, false, [FileAction.alloc, FileAction.free_buf, FileAction.close_file])
    ∧ ((disc_read_file 100 true (some ⟨10, 5⟩)).2.2).getLast?
        = some FileAction.close_file :=
  ⟨(disc_read_file_short_read 100 ⟨10, 5⟩ (by decide) (by decide)).1,
   ((disc_read_file_short_read 100 ⟨10, 5⟩ (by decide) (by decide)).2
      100 true (some ⟨10, 5⟩)).1 rfl⟩

/-! ## C10: disc_root is separator-terminated -/

/-- C10: whenever `_set_paths` stores a present `disc_root`, its final
character is the directory separator: a non-empty, already
separator-terminated mountpoint is stored unchanged, any other mountpoint
gets the separator appended (the empty one becoming the single
separator), and an absent mountpoint leaves `disc_root` absent. -/
theorem set_paths_sep_terminated :
    (∀ (mp r : List Char), set_paths (some mp) = some r →
      r ≠ [] ∧ r.getLast? = some DIR_SEP_CHAR)
    ∧ (∀ mp : List Char, mp ≠ [] → mp.getLast? = some DIR_SEP_CHAR →
        set_paths (some mp) = some mp)
    ∧ (∀ mp : List Char, mp.getLast? ≠ some DIR_SEP_CHAR →
        set_paths (some mp) = some (mp ++ [DIR_SEP_CHAR]))
    ∧ set_paths (some []) = some [DIR_SEP_CHAR]
    ∧ set_paths none = none := by
  refine ⟨fun mp r h => ?_, fun mp hne hlast => ?_, fun mp hlast => ?_, rfl, rfl⟩
  · rw [set_paths] at h
    by_cases hc : mp ≠ [] ∧ mp.getLast? = some DIR_SEP_CHAR
    · rw [if_pos hc] at h
      cases h
      exact hc
    · rw [if_neg hc] at h
      cases h
      refine ⟨by simp, ?_⟩
      rw [List.getLast?_concat]
  · rw [set_paths, if_pos ⟨hne, hlast⟩]
  · rw [set_paths, if_neg]
    intro hc
    exact hlast hc.2

/-- Witness for C10: the mountpoint `"a"` is stored as `"a/"`. -/
theorem set_paths_sep_terminated_witness :
    set_paths (some ['a']) = some ['a', '/']
    ∧ (['a', '/'] : List Char) ≠ []
    ∧ (['a', '/'] : List Char).getLast? = some DIR_SEP_CHAR :=
  ⟨by
    have := set_paths_sep_terminated.2.2.1 ['a'] (by decide)
    simpa [DIR_SEP_CHAR] using this,
   by decide, by decide⟩

end LibBluray
